import Mathlib

/-!
Shallow embedding of the release-tracking cron pipeline
(`music_tracker_cron.py`, `melon_scraper.py`).

Modelling conventions:
* Python `dict` (the tracked-releases ledger) is an association list whose
  insert updates an existing binding in place and otherwise appends,
  matching dict insertion-order semantics.
* Wall-clock times are integer epoch seconds.  The program uses two clocks:
  `datetime.now()` (naive local, `Env.now`) and `datetime.now(timezone.utc)`
  (timezone-aware, `Env.nowUtc`).  Python refuses to order an aware datetime
  against a naive one (`TypeError`); `pyLt` returns `none` in that case.
* Calendar-date strings (`%Y-%m-%d`) are modelled as integers ordered like
  the strings (lexicographic order on fixed-width ISO dates is the calendar
  order); `dateOf` maps an epoch second to its date.
* Fallible Python code is `Except Unit`: an uncaught exception is `.error ()`.
* Upstream JSON items are records whose `Option` fields model the presence of
  the dict keys the code reads; reading an absent key raises `KeyError`.
-/

set_option autoImplicit false

namespace MusicTracker

/-- A Python datetime value: an instant plus whether it carries tzinfo. -/
structure PyDatetime where
  epoch : Int
  aware : Bool
  deriving Repr, DecidableEq

/-- Python `<` on datetimes: comparing a timezone-aware datetime with a naive
one raises `TypeError`, modelled as `none`. -/
def pyLt (a b : PyDatetime) : Option Bool :=
  if a.aware = b.aware then some (decide (a.epoch < b.epoch)) else none

/-- The `timestamp` field of a persisted ledger entry, as seen by
`datetime.fromisoformat` after `.replace('Z', '+00:00')`:
either the key is missing / the string empty (falsy), or the string does not
parse (`ValueError`), or it parses to a datetime that is aware or naive. -/
inductive TsField where
  | missing
  | malformed
  | iso (epoch : Int) (aware : Bool)
  deriving Repr, DecidableEq

/-- A ledger entry as written by `run` (dict with keys
artist / title / platform / timestamp). -/
structure Entry where
  artist : String
  title : String
  platform : String
  timestamp : TsField
  deriving Repr, DecidableEq

/-- The tracked-releases ledger: a Python dict keyed by track key. -/
abbrev Ledger := List (String × Entry)

/-- Python `key in dict`. -/
def dictContains (d : Ledger) (k : String) : Bool :=
  d.any (fun p => p.1 = k)

/-- Python `dict[key] = value`: update in place if the key is present
(keeping its position), otherwise append. -/
def dictInsert (d : Ledger) (k : String) (v : Entry) : Ledger :=
  if dictContains d k then
    d.map (fun p => if p.1 = k then (k, v) else p)
  else
    d ++ [(k, v)]

/-- A release record as built by the adapters (dict with the keys the rest of
the pipeline reads; `album` and `published_at` only exist for Melon resp.
YouTube records and default to `none`). -/
structure Release where
  platform : String
  artist : String
  title : String
  rtype : String
  url : String
  image : Option String
  release_date : Int
  track_key : String
  published_at : Option Int := none
  album : Option String := none
  deriving Repr, DecidableEq

/-- Outcome of one POST to the Spotify token endpoint. -/
inductive TokenResp where
  | ok (access_token : String) (expires_in : Int)
  | badStatus
  | raised
  deriving Repr, DecidableEq

/-- One album item of a Spotify albums response.  `Option` fields model
presence of the dict keys read by the loop body; `images` is the JSON list of
image objects (their `url` fields). -/
structure SpotifyAlbum where
  release_date : Option Int
  id : Option String
  name : Option String
  album_type : Option String
  url : Option String
  images : Option (List String)
  deriving Repr, DecidableEq

/-- Outcome of the Spotify albums GET for one artist.  `ok none` is a 200
body without an `items` key (`data.get('items', [])`). -/
inductive SpotifyResp where
  | ok (items : Option (List SpotifyAlbum))
  | rate429
  | errStatus
  | raised
  deriving Repr, DecidableEq

/-- One item of a YouTube search response. -/
structure YtItem where
  videoId : Option String
  publishedAt : Option Int
  title : Option String
  thumb : Option String
  deriving Repr, DecidableEq

/-- Outcome of the YouTube search GET for one channel. -/
inductive YtResp where
  | ok (items : Option (List YtItem))
  | quota403
  | errStatus
  | raised
  deriving Repr, DecidableEq

/-- The `youtube_channel_id` configuration field: absent/falsy, a single
string, or a list of strings. -/
inductive YtChans where
  | absent
  | one (c : String)
  | many (cs : List String)
  deriving Repr, DecidableEq

/-- Python truthiness of the `youtube_channel_id` value (an empty list is
falsy; `one` models a non-empty string). -/
def YtChans.truthy : YtChans → Bool
  | .absent => false
  | .one _ => true
  | .many cs => !cs.isEmpty

/-- The channel list actually iterated (a single string is wrapped). -/
def YtChans.toList : YtChans → List String
  | .absent => []
  | .one c => [c]
  | .many cs => cs

/-- One `<tr data-song-no=...>` row of a Melon artist song page.
`date_field`: `none` = no date element found, `some none` = date text that
`strptime` rejects, `some (some d)` = date parsing to calendar date `d`.
`raisesOther` models an unexpected exception while parsing this row (caught
by the per-row handler). -/
structure MelonSong where
  song_no : String
  title : Option String
  date_field : Option (Option Int)
  image : Option String
  album : Option String
  raisesOther : Bool
  deriving Repr, DecidableEq

/-- Outcome of fetching a Melon artist page.  `raised` covers both a network
error inside the scraper and any exception inside `check_melon_releases`
(all are caught and degrade to an empty list). -/
inductive MelonResp where
  | ok (songs : List MelonSong)
  | httpErr
  | noTable
  | raised
  deriving Repr, DecidableEq

/-- One artist configuration record.  `name` is required by the code
(`artist['name']`); identifier fields are optional and falsy values are
modelled as `none`. -/
structure Artist where
  name : String
  spotify_id : Option String
  youtube_channel_id : YtChans
  melon_url : Option String
  deriving Repr, DecidableEq

/-- Everything external to one cron invocation: the two clocks, configuration
from the environment, and the upstream responses (indexed by artist position,
and by channel position for YouTube; `tokenResp` is indexed by how many token
POSTs have happened so far in this run). -/
structure Env where
  now : Int
  nowUtc : Int
  checkHours : Int
  credsSet : Bool
  ytKeySet : Bool
  tokenResp : Nat → TokenResp
  spotifyResp : Nat → SpotifyResp
  ytResp : Nat → Nat → YtResp
  melonResp : Nat → MelonResp

/-- The Spotify token cache (`self.spotify_token`,
`self.spotify_token_expiry`); `fetchCount` is model bookkeeping selecting the
next `Env.tokenResp` outcome. -/
structure TokSt where
  token : Option String
  expiry : Option Int
  fetchCount : Nat
  deriving Repr, DecidableEq

/-- Python truthiness of `self.spotify_token`. -/
def tokenTruthy : Option String → Bool
  | none => false
  | some t => t ≠ ""

/-- The token POST and cache update (body of `get_spotify_token` past the
cache check).  A missing credential pair logs and yields `none`; a non-200
response yields `none`; an exception during the POST propagates. -/
def fetchToken (env : Env) (st : TokSt) : Except Unit (Option String × TokSt) :=
  if env.credsSet then
    match env.tokenResp st.fetchCount with
    | .ok tok expiresIn =>
        .ok (some tok, ⟨some tok, some (env.now + expiresIn - 300), st.fetchCount + 1⟩)
    | .badStatus => .ok (none, { st with fetchCount := st.fetchCount + 1 })
    | .raised => .error ()
  else
    .ok (none, st)

/-- `get_spotify_token`: return the cached token while
`self.spotify_token_expiry > datetime.now()`, else fetch.  Comparing a `None`
expiry would itself raise `TypeError` (unreachable from the initial state). -/
def get_spotify_token (env : Env) (st : TokSt) : Except Unit (Option String × TokSt) :=
  if tokenTruthy st.token then
    match st.expiry with
    | none => .error ()
    | some e => if env.now < e then .ok (st.token, st) else fetchToken env st
  else
    fetchToken env st

/-- Epoch second to calendar date (`strftime('%Y-%m-%d')` image, as an
ordered integer). -/
def dateOf (t : Int) : Int := t / 86400

/-- `check_date` of `check_spotify_releases`:
`(now - timedelta(hours=CHECK_HOURS + 1)).strftime('%Y-%m-%d')`. -/
def spotifyCheckDate (env : Env) : Int :=
  dateOf (env.now - (env.checkHours + 1) * 3600)

/-- Effect of one loop iteration on the accumulating result: raise an
exception that aborts the remaining items (`abort`), move on (`skip`), or
append a record (`emit`). -/
inductive ItemStep where
  | abort
  | skip
  | emit (r : Release)
  deriving Repr, DecidableEq

/-- Body of the `for album in data.get('items', [])` loop of
`check_spotify_releases`.  `album.get('release_date', '')` never raises and
the missing-key `''` fails the `>= check_date` string comparison; a missing
`id` raises before the date test; the record-building dict accesses
(`name`, `album_type`, `external_urls`, `images`) raise only after the key
passed the tracked filter. -/
def spotifyStep (tracked : Ledger) (checkDate : Int) (artistName : String)
    (album : SpotifyAlbum) : ItemStep :=
  match album.id with
  | none => .abort
  | some albumId =>
    match album.release_date with
    | none => .skip
    | some d =>
      if checkDate ≤ d then
        if dictContains tracked ("spotify_" ++ albumId) then .skip
        else
          match album.name, album.album_type, album.url, album.images with
          | some nm, some ty, some u, some imgs =>
              .emit { platform := "Spotify", artist := artistName, title := nm,
                      rtype := ty, url := u, image := imgs.head?,
                      release_date := d, track_key := "spotify_" ++ albumId }
          | _, _, _, _ => .abort
      else .skip

/-- The Spotify album loop.  The whole loop runs inside one `try`: a
`KeyError` (`abort`) ends the loop, the handler logs, and the records
accumulated so far are returned. -/
def processSpotifyItems (tracked : Ledger) (checkDate : Int) (artistName : String) :
    List SpotifyAlbum → List Release
  | [] => []
  | album :: rest =>
    match spotifyStep tracked checkDate artistName album with
    | .abort => []
    | .skip => processSpotifyItems tracked checkDate artistName rest
    | .emit r => r :: processSpotifyItems tracked checkDate artistName rest

/-- `check_spotify_releases` for the artist at position `aIdx`.  A token POST
exception propagates (the call at line 94 sits outside every `try`); any
other token failure, and every albums-GET failure, degrades to no records. -/
def check_spotify_releases (env : Env) (aIdx : Nat) (artist : Artist)
    (tracked : Ledger) (st : TokSt) : Except Unit (List Release × TokSt) :=
  match artist.spotify_id with
  | none => .ok ([], st)
  | some _ =>
    match get_spotify_token env st with
    | .error e => .error e
    | .ok (none, st') => .ok ([], st')
    | .ok (some _, st') =>
      match env.spotifyResp aIdx with
      | .ok items =>
          .ok (processSpotifyItems tracked (spotifyCheckDate env) artist.name
                 (items.getD []), st')
      | _ => .ok ([], st')

/-- Body of the `for item in items` loop of `check_youtube_releases`.
`item['id']['videoId']` is read first (raising on a malformed item); an
already-tracked key is skipped before any snippet field is read. -/
def ytStep (tracked : Ledger) (artistName : String) (it : YtItem) : ItemStep :=
  match it.videoId with
  | none => .abort
  | some vid =>
    if dictContains tracked ("youtube_" ++ vid) then .skip
    else
      match it.publishedAt, it.title, it.thumb with
      | some pa, some t, some th =>
          .emit { platform := "YouTube", artist := artistName, title := t,
                  rtype := "video",
                  url := "https://www.youtube.com/watch?v=" ++ vid,
                  image := some th, release_date := pa,
                  track_key := "youtube_" ++ vid, published_at := some pa }
      | _, _, _ => .abort

/-- The YouTube item loop for one channel.  The per-channel `try` wraps the
loop: a `KeyError` (`abort`) ends this channel's items, keeping the records
already appended. -/
def processYtItems (tracked : Ledger) (artistName : String) :
    List YtItem → List Release
  | [] => []
  | it :: rest =>
    match ytStep tracked artistName it with
    | .abort => []
    | .skip => processYtItems tracked artistName rest
    | .emit r => r :: processYtItems tracked artistName rest

/-- Per-channel dispatch on the search response status.  Non-200 outcomes and
exceptions are caught inside the per-channel `try` and contribute nothing. -/
def ytChannel (tracked : Ledger) (artistName : String) : YtResp → List Release
  | .ok items => processYtItems tracked artistName (items.getD [])
  | _ => []

/-- `check_youtube_releases` for the artist at position `aIdx`: iterate the
channel list, concatenating each channel's records in order. -/
def check_youtube_releases (env : Env) (aIdx : Nat) (artist : Artist)
    (tracked : Ledger) : List Release :=
  if artist.youtube_channel_id.truthy then
    if env.ytKeySet then
      (List.range artist.youtube_channel_id.toList.length).flatMap
        (fun cIdx => ytChannel tracked artist.name (env.ytResp aIdx cIdx))
    else []
  else []

/-- Body of the per-row loop of `MelonScraper.scrape_artist_songs`:
`none` models every `continue`/fall-through path (missing title element,
missing date element, `ValueError` from `strptime`, any other exception,
release older than `yesterday = now - timedelta(days=1)`).  The parsed date
is midnight of day `d`, compared against the full `yesterday` datetime. -/
def melonItem (artistName : String) (now : Int) (s : MelonSong) : Option Release :=
  if s.raisesOther then none
  else
    match s.title with
    | none => none
    | some t =>
      match s.date_field with
      | none => none
      | some none => none
      | some (some d) =>
        if now - 86400 ≤ d * 86400 then
          some { platform := "Melon", artist := artistName, title := t,
                 rtype := "single",
                 url := "https://www.melon.com/song/detail.htm?songId=" ++ s.song_no,
                 image := s.image, release_date := d,
                 track_key := "melon_" ++ s.song_no, album := s.album }
        else none

/-- `MelonScraper.scrape_artist_songs`: every failure path returns the rows
accumulated so far ([] when the page fetch or table lookup failed); otherwise
the first 10 rows are processed with per-row error isolation. -/
def scrape_artist_songs (resp : MelonResp) (artistName : String) (now : Int) :
    List Release :=
  match resp with
  | .ok songs => (songs.take 10).filterMap (melonItem artistName now)
  | _ => []

/-- `check_melon_releases` for the artist at position `aIdx`: scrape, then
keep rows whose key is not yet tracked.  All exceptions are caught. -/
def check_melon_releases (env : Env) (aIdx : Nat) (artist : Artist)
    (tracked : Ledger) : List Release :=
  match artist.melon_url with
  | none => []
  | some _ =>
    (scrape_artist_songs (env.melonResp aIdx) artist.name env.now).filter
      (fun r => !dictContains tracked r.track_key)

/-- One iteration of the `for artist in self.artists` loop of
`check_all_releases`: Spotify, then YouTube, then Melon.  Only the Spotify
check can propagate an exception (the token POST). -/
def checkArtist (env : Env) (aIdx : Nat) (artist : Artist) (tracked : Ledger)
    (st : TokSt) : Except Unit (List Release × TokSt) :=
  match check_spotify_releases env aIdx artist tracked st with
  | .error e => .error e
  | .ok (sp, st') =>
      .ok (sp ++ check_youtube_releases env aIdx artist tracked
              ++ check_melon_releases env aIdx artist tracked, st')

/-- The artist loop of `check_all_releases`, threading the token cache. -/
def check_all_aux (env : Env) (tracked : Ledger) :
    List Artist → Nat → TokSt → Except Unit (List Release)
  | [], _, _ => .ok []
  | a :: rest, i, st =>
    match checkArtist env i a tracked st with
    | .error e => .error e
    | .ok (rs, st') =>
      match check_all_aux env tracked rest (i + 1) st' with
      | .error e => .error e
      | .ok more => .ok (rs ++ more)

/-- `check_all_releases`: all platforms for all artists, in order, starting
from an empty token cache. -/
def check_all_releases (env : Env) (artists : List Artist) (tracked : Ledger) :
    Except Unit (List Release) :=
  check_all_aux env tracked artists 0 ⟨none, none, 0⟩

/-- Whether `cleanup_old_tracked_releases` keeps a ledger entry.  The cutoff
`datetime.now() - timedelta(days=days)` is naive; a missing/empty timestamp
is skipped, an unparseable one hits the bare `except: pass`, and so does the
`TypeError` from comparing an aware timestamp with the naive cutoff. -/
def cleanupKeeps (e : Entry) (now : Int) (days : Int) : Bool :=
  match e.timestamp with
  | .missing => true
  | .malformed => true
  | .iso ep aw =>
    match pyLt ⟨ep, aw⟩ ⟨now - days * 86400, false⟩ with
    | none => true
    | some b => !b

/-- `cleanup_old_tracked_releases`: delete the entries whose parsed timestamp
is strictly before the cutoff (deletion preserves the order of the rest). -/
def cleanup_old_tracked_releases (tracked : Ledger) (now : Int) (days : Int) :
    Ledger :=
  tracked.filter (fun p => cleanupKeeps p.2 now days)

/-- The ledger entry `run` writes for an accepted release
(`timestamp = datetime.now(timezone.utc).isoformat()`, which round-trips
through `fromisoformat` as an aware datetime). -/
def mkEntry (r : Release) (nowUtc : Int) : Entry :=
  ⟨r.artist, r.title, r.platform, .iso nowUtc true⟩

/-- The `for release in new_releases` recording loop of `run`. -/
def recordAll (tracked : Ledger) (rs : List Release) (nowUtc : Int) : Ledger :=
  rs.foldl (fun t r => dictInsert t r.track_key (mkEntry r nowUtc)) tracked

/-- The persisted ledger file name. -/
def trackedFile : String := "tracked_releases.json"

/-- A file-system operation performed while persisting. -/
inductive FileOp where
  | openTrunc (path : String)
  | write (path : String) (content : Ledger)
  | rename (src : String) (dst : String)
  deriving Repr, DecidableEq

/-- `save_tracked_releases`: `open(TRACKED_RELEASES_FILE, 'w')` truncates the
ledger file in place, then `json.dump` writes the full mapping into it.  No
temporary file, no rename. -/
def save_tracked_releases (tracked : Ledger) : List FileOp :=
  [FileOp.openTrunc trackedFile, FileOp.write trackedFile tracked]

/-- Content of one file path: absent, truncated-with-incomplete-write, or a
fully written mapping. -/
inductive FileContent where
  | absent
  | torn
  | full (l : Ledger)
  deriving Repr, DecidableEq

/-- Effect of one file operation on a path→content file system. -/
def applyOp (fs : String → FileContent) : FileOp → (String → FileContent)
  | .openTrunc p => fun q => if q = p then .torn else fs q
  | .write p l => fun q => if q = p then .full l else fs q
  | .rename src dst =>
      fun q => if q = dst then fs src else if q = src then .absent else fs q

/-- State of the persisted ledger file before a run. -/
inductive LedgerFile where
  | missing
  | corrupt
  | valid (l : Ledger)
  deriving Repr, DecidableEq

/-- `load_tracked_releases`: `FileNotFoundError` is caught and yields the
empty dict; a present file that `json.load` rejects raises
`json.JSONDecodeError`, which nothing below `main` catches. -/
def load_tracked_releases : LedgerFile → Except Unit Ledger
  | .missing => .ok []
  | .corrupt => .error ()
  | .valid l => .ok l

/-- `run`, from a loaded ledger: returns the records passed to
`send_to_discord_webhook`, the ledger that the next run will observe, and
whether `save_tracked_releases` was called.  When nothing new is found the
webhook, the recording loop, the cleanup and the save are all skipped. -/
def run (env : Env) (artists : List Artist) (tracked : Ledger) :
    Except Unit (List Release × Ledger × Bool) :=
  if artists.isEmpty then .ok ([], tracked, false)
  else
    match check_all_releases env artists tracked with
    | .error e => .error e
    | .ok newReleases =>
      if newReleases.isEmpty then .ok ([], tracked, false)
      else
        .ok (newReleases,
             cleanup_old_tracked_releases (recordAll tracked newReleases env.nowUtc)
               env.now 30,
             true)

/-- `run` including `load_tracked_releases` (line 354). -/
def runFromFile (env : Env) (artists : List Artist) (file : LedgerFile) :
    Except Unit (List Release × Ledger × Bool) :=
  match load_tracked_releases file with
  | .error e => .error e
  | .ok l => run env artists l

/-- Observable outcome of `main`: either the cron job completed, or an
exception reached `main`'s handler and the process exited with status 1. -/
inductive MainResult where
  | completed (dispatched : List Release) (ledger : Ledger) (wrote : Bool)
  | fatalExit
  deriving Repr, DecidableEq

/-- `main`: any exception escaping `run` is logged and turns into
`sys.exit(1)`. -/
def mainResult (env : Env) (artists : List Artist) (file : LedgerFile) :
    MainResult :=
  match runFromFile env artists file with
  | .error _ => .fatalExit
  | .ok (d, l, w) => .completed d l w

/-- Outcome of one cron invocation as the next invocation sees it: an aborted
run dispatched nothing (the exception fires during POLLING, before the
webhook step) and left the ledger file untouched. -/
def runOutcome (env : Env) (artists : List Artist) (tracked : Ledger) :
    List Release × Ledger :=
  match run env artists tracked with
  | .error _ => ([], tracked)
  | .ok (d, l, _) => (d, l)

/-- A sequence of cron invocations: per-run dispatched lists and the final
persisted ledger. -/
def runSeq : List (Env × List Artist) → Ledger → List (List Release) × Ledger
  | [], l => ([], l)
  | (env, arts) :: rest, l =>
    let p := runOutcome env arts l
    let q := runSeq rest p.2
    (p.1 :: q.1, q.2)

/-! ### Well-formedness of upstream items (no `KeyError` while processing) -/

/-- Every dict key the Spotify loop body reads is present. -/
def spotifyAlbumWF (a : SpotifyAlbum) : Bool :=
  a.id.isSome && a.name.isSome && a.album_type.isSome && a.url.isSome && a.images.isSome

/-- A Spotify response whose items are all well-formed. -/
def spotifyRespWF : SpotifyResp → Bool
  | .ok (some items) => items.all spotifyAlbumWF
  | _ => true

/-- Every dict key the YouTube loop body reads is present. -/
def ytItemWF (it : YtItem) : Bool :=
  it.videoId.isSome && it.publishedAt.isSome && it.title.isSome && it.thumb.isSome

/-- A YouTube response whose items are all well-formed. -/
def ytRespWF : YtResp → Bool
  | .ok (some items) => items.all ytItemWF
  | _ => true

/-- All upstream responses of an environment are well-formed. -/
def EnvWF (env : Env) : Prop :=
  (∀ i, spotifyRespWF (env.spotifyResp i) = true) ∧
  (∀ i j, ytRespWF (env.ytResp i j) = true)

/-! ### Pointwise response updates (for the isolation claim) -/

/-- Replace the Spotify albums response of the artist at position `i`. -/
def setSpotifyResp (env : Env) (i : Nat) (r : SpotifyResp) : Env :=
  { env with spotifyResp := fun j => if j = i then r else env.spotifyResp j }

/-- Replace the YouTube search response of channel `j` of the artist at
position `i`. -/
def setYtResp (env : Env) (i j : Nat) (r : YtResp) : Env :=
  { env with ytResp := fun i' j' =>
      if i' = i ∧ j' = j then r else env.ytResp i' j' }

/-- Replace the Melon page response of the artist at position `i`. -/
def setMelonResp (env : Env) (i : Nat) (r : MelonResp) : Env :=
  { env with melonResp := fun j => if j = i then r else env.melonResp j }

/-- A Spotify albums-GET failure handled inside `check_spotify_releases`
(non-200 status or an exception caught by the per-request `try`). -/
def spotifyHandled : SpotifyResp → Bool
  | .ok _ => false
  | _ => true

/-- A YouTube failure handled inside the per-channel `try`. -/
def ytHandled : YtResp → Bool
  | .ok _ => false
  | _ => true

/-- A Melon failure (all are handled). -/
def melonFailed : MelonResp → Bool
  | .ok _ => false
  | _ => true

/-! ### Key multiplicities -/

/-- Number of ledger bindings under key `k`. -/
def keyCount (d : Ledger) (k : String) : Nat :=
  d.countP (fun p => p.1 = k)

/-- Number of release records carrying dedup key `k`. -/
def relCount (rs : List Release) (k : String) : Nat :=
  rs.countP (fun r => r.track_key = k)

/-! ### Concrete instances used by counterexamples and witnesses -/

/-- An environment in which every upstream call fails benignly. -/
def quietEnv : Env where
  now := 0
  nowUtc := 0
  checkHours := 2
  credsSet := false
  ytKeySet := false
  tokenResp := fun _ => TokenResp.badStatus
  spotifyResp := fun _ => SpotifyResp.errStatus
  ytResp := fun _ _ => YtResp.errStatus
  melonResp := fun _ => MelonResp.httpErr

def c2AlbumBadM : SpotifyAlbum := ⟨some 10, some "m", none, some "single", some "um", some []⟩

def c2AlbumGoodN : SpotifyAlbum := ⟨some 10, some "n", some "N", some "single", some "un", some []⟩

def c2AlbumGoodM : SpotifyAlbum := ⟨some 10, some "m", some "M", some "single", some "um", some []⟩

def c2Artists : List Artist := [⟨"A", some "sA", .absent, none⟩, ⟨"B", some "sB", .absent, none⟩]

def c2Env : Env :=
  { quietEnv with
    now := 864000, nowUtc := 864000, credsSet := true,
    tokenResp := fun _ => TokenResp.ok "tok" 4000,
    spotifyResp := fun i =>
      if i = 0 then SpotifyResp.ok (some [c2AlbumBadM, c2AlbumGoodN])
      else SpotifyResp.ok (some [c2AlbumGoodM]) }

def c2RecM : Release := ⟨"Spotify", "B", "M", "single", "um", none, 10, "spotify_m", none, none⟩

def c2RecN : Release := ⟨"Spotify", "A", "N", "single", "un", none, 10, "spotify_n", none, none⟩

def c2L1 : Ledger := [("spotify_m", ⟨"B", "M", "Spotify", .iso 864000 true⟩)]

def c2L2 : Ledger :=
  [("spotify_m", ⟨"B", "M", "Spotify", .iso 864000 true⟩),
   ("spotify_n", ⟨"A", "N", "Spotify", .iso 864000 true⟩)]

def c2wArtists : List Artist := [⟨"A", some "sA", .absent, none⟩]

def c2wEnv : Env :=
  { quietEnv with
    now := 864000, nowUtc := 864000, credsSet := true,
    tokenResp := fun _ => TokenResp.ok "tok" 4000,
    spotifyResp := fun _ => SpotifyResp.ok (some [c2AlbumGoodM]) }

def c2wRec : Release := ⟨"Spotify", "A", "M", "single", "um", none, 10, "spotify_m", none, none⟩

def c2wL1 : Ledger := [("spotify_m", ⟨"A", "M", "Spotify", .iso 864000 true⟩)]

def c3Entry : Entry := ⟨"A", "T", "Spotify", .iso 0 true⟩

def c3L0 : Ledger := [("spotify_a", c3Entry)]

def c3Steps : List (Env × List Artist) := [(quietEnv, [⟨"A", none, .absent, none⟩])]

def c4Artists : List Artist := [⟨"A", some "sA", .absent, some "mA"⟩]

def c4SongGood : MelonSong := ⟨"77", some "T", some (some 10), none, none, false⟩

def c4MelonRec : Release :=
  ⟨"Melon", "A", "T", "single", "https://www.melon.com/song/detail.htm?songId=77",
   none, 10, "melon_77", none, none⟩

def c4EnvBad : Env :=
  { quietEnv with
    now := 864000, nowUtc := 864000, credsSet := true,
    tokenResp := fun _ => TokenResp.raised,
    melonResp := fun _ => MelonResp.ok [c4SongGood] }

def c4EnvOk : Env := { c4EnvBad with tokenResp := fun _ => TokenResp.badStatus }

def c5Prior : Ledger := [("k0", ⟨"P", "Q", "Spotify", .iso 0 true⟩)]

def c5New : Ledger := [("k1", ⟨"R", "S", "Melon", .iso 5 true⟩)]

def c5Fs0 : String → FileContent :=
  fun p => if p = trackedFile then FileContent.full c5Prior else FileContent.absent

def c7Bad : SpotifyAlbum := ⟨some 5, some "b", none, some "single", some "ub", some []⟩

def c7Good : SpotifyAlbum := ⟨some 5, some "g", some "G", some "single", some "ug", some []⟩

def c7GoodRec : Release := ⟨"Spotify", "A", "G", "single", "ug", none, 5, "spotify_g", none, none⟩

def c7Good2 : SpotifyAlbum := ⟨some 5, some "h", some "H", some "single", some "uh", some []⟩

def c7Good2Rec : Release := ⟨"Spotify", "A", "H", "single", "uh", none, 5, "spotify_h", none, none⟩

def c7MelonBad : MelonSong := ⟨"9", none, some (some 10), none, none, false⟩

def c7SongOk : MelonSong := ⟨"8", some "S", some (some 10), none, none, false⟩

def c7SongOk2 : MelonSong := ⟨"6", some "S2", some (some 10), none, none, false⟩

def c7YtBad : YtItem := ⟨none, some 1, some "t", some "th"⟩

def c7YtGood : YtItem := ⟨some "v9", some 10, some "T9", some "th9"⟩

def c8Artist : Artist := ⟨"A", none, .absent, none⟩

def c9Env : Env := { quietEnv with credsSet := true, tokenResp := fun _ => TokenResp.ok "tok" 60 }

def c9EnvW : Env := { quietEnv with now := 50 }

def c10Album : SpotifyAlbum := ⟨some 10, some "x", some "N", some "single", some "ux", some []⟩

def c10Artists : List Artist := [⟨"A", some "sA", .absent, none⟩, ⟨"B", some "sB", .absent, none⟩]

def c10Env : Env :=
  { quietEnv with
    now := 864000, nowUtc := 864000, credsSet := true,
    tokenResp := fun _ => TokenResp.ok "tok" 4000,
    spotifyResp := fun _ => SpotifyResp.ok (some [c10Album]) }

def c10RecA : Release := ⟨"Spotify", "A", "N", "single", "ux", none, 10, "spotify_x", none, none⟩

def c10RecB : Release := ⟨"Spotify", "B", "N", "single", "ux", none, 10, "spotify_x", none, none⟩

def c10L : Ledger := [("spotify_x", ⟨"B", "N", "Spotify", .iso 864000 true⟩)]

end MusicTracker

namespace MusicTracker

/-! ### Helper lemmas about the ledger dictionary -/

theorem contains_of_mem {d : Ledger} {k : String} {e : Entry}
    (h : (k, e) ∈ d) : dictContains d k = true := by
  simp only [dictContains, List.any_eq_true, decide_eq_true_eq]
  exact ⟨(k, e), h, rfl⟩

theorem mem_dictInsert_of_ne {d : Ledger} {k k' : String} {e : Entry}
    (v : Entry) (hm : (k, e) ∈ d) (hne : k ≠ k') :
    (k, e) ∈ dictInsert d k' v := by
  unfold dictInsert
  by_cases hc : dictContains d k'
  · simp only [hc, if_true]
    have : (fun p : String × Entry => if p.1 = k' then (k', v) else p) (k, e) = (k, e) := by
      simp [hne]
    exact this ▸ List.mem_map_of_mem _ hm
  · simp only [hc, if_false]
    exact List.mem_append_left _ hm

theorem mem_recordAll_of_not_key {d : Ledger} {k : String} {e : Entry}
    {rs : List Release} {now : Int}
    (hm : (k, e) ∈ d) (h : ∀ r ∈ rs, r.track_key ≠ k) :
    (k, e) ∈ recordAll d rs now := by
  induction rs generalizing d with
  | nil => exact hm
  | cons r rest ih =>
    exact ih (mem_dictInsert_of_ne _ hm fun hk => h r (List.mem_cons_self r rest) (hk ▸ rfl))
      (fun r' hr' => h r' (List.mem_cons_of_mem r hr'))

theorem mem_cleanup_of_kept {d : Ledger} {k : String} {e : Entry} {now days : Int}
    (hm : (k, e) ∈ d) (hk : cleanupKeeps e now days = true) :
    (k, e) ∈ cleanup_old_tracked_releases d now days :=
  List.mem_filter.mpr ⟨hm, hk⟩

theorem mem_dictInsert {d : Ledger} {k : String} {v : Entry} {p : String × Entry}
    (h : p ∈ dictInsert d k v) : p ∈ d ∨ p = (k, v) := by
  unfold dictInsert at h
  by_cases hc : dictContains d k
  · simp only [hc, if_true] at h
    obtain ⟨q, hq, hfq⟩ := List.mem_map.mp h
    by_cases hq1 : q.1 = k
    · right; simp [hq1] at hfq; exact hfq.symm
    · left; simp [hq1] at hfq; exact hfq ▸ hq
  · simp only [hc, if_false] at h
    rcases List.mem_append.mp h with h1 | h1
    · exact Or.inl h1
    · right; simpa using h1

theorem mem_recordAll {d : Ledger} {rs : List Release} {now : Int}
    {p : String × Entry} (h : p ∈ recordAll d rs now) :
    p ∈ d ∨ ∃ r ∈ rs, p = (r.track_key, mkEntry r now) := by
  induction rs generalizing d with
  | nil => exact Or.inl h
  | cons r rest ih =>
    rcases ih h with h1 | ⟨r', hr', hp⟩
    · rcases mem_dictInsert h1 with h2 | h2
      · exact Or.inl h2
      · exact Or.inr ⟨r, List.mem_cons_self r rest, h2⟩
    · exact Or.inr ⟨r', List.mem_cons_of_mem r hr', hp⟩

theorem recordAll_cons (d : Ledger) (r : Release) (rs : List Release) (now : Int) :
    recordAll d (r :: rs) now
      = recordAll (dictInsert d r.track_key (mkEntry r now)) rs now := rfl

theorem contains_dictInsert_of_contains {d : Ledger} {k k' : String} (v : Entry)
    (h : dictContains d k = true) : dictContains (dictInsert d k' v) k = true := by
  unfold dictInsert
  by_cases hc : dictContains d k'
  · simp only [hc, if_true]
    simp only [dictContains, List.any_eq_true, decide_eq_true_eq] at h ⊢
    obtain ⟨p, hp, hpk⟩ := h
    by_cases hq : p.1 = k'
    · exact ⟨(k', v), List.mem_map.mpr ⟨p, hp, by simp [hq]⟩, by rw [← hpk, hq]⟩
    · exact ⟨p, List.mem_map.mpr ⟨p, hp, by simp [hq]⟩, hpk⟩
  · simp only [hc, if_false]
    simp only [dictContains, List.any_eq_true, decide_eq_true_eq] at h ⊢
    obtain ⟨p, hp, hpk⟩ := h
    exact ⟨p, List.mem_append_left _ hp, hpk⟩

theorem contains_dictInsert_self {d : Ledger} {k : String} (v : Entry) :
    dictContains (dictInsert d k v) k = true := by
  unfold dictInsert
  by_cases hc : dictContains d k
  · simp only [hc, if_true]
    simp only [dictContains, List.any_eq_true, decide_eq_true_eq] at hc ⊢
    obtain ⟨p, hp, hpk⟩ := hc
    exact ⟨(k, v), List.mem_map.mpr ⟨p, hp, by simp [hpk]⟩, rfl⟩
  · simp only [hc, if_false]
    simp [dictContains]

theorem contains_recordAll_of_contains {d : Ledger} {rs : List Release} {now : Int}
    {k : String} (h : dictContains d k = true) :
    dictContains (recordAll d rs now) k = true := by
  induction rs generalizing d with
  | nil => exact h
  | cons r rest ih => exact ih (contains_dictInsert_of_contains _ h)

theorem contains_recordAll_of_mem {d : Ledger} {rs : List Release} {now : Int}
    {r : Release} (h : r ∈ rs) :
    dictContains (recordAll d rs now) r.track_key = true := by
  induction rs generalizing d with
  | nil => cases h
  | cons r' rest ih =>
    rw [recordAll_cons]
    rcases List.mem_cons.mp h with h1 | h1
    · subst h1
      exact contains_recordAll_of_contains (contains_dictInsert_self _)
    · exact ih h1

theorem contains_cleanup_of_all_kept {d : Ledger} {k : String} {now days : Int}
    (h : dictContains d k = true)
    (hkeep : ∀ p ∈ d, p.1 = k → cleanupKeeps p.2 now days = true) :
    dictContains (cleanup_old_tracked_releases d now days) k = true := by
  simp only [dictContains, List.any_eq_true, decide_eq_true_eq] at h ⊢
  obtain ⟨p, hp, hpk⟩ := h
  exact ⟨p, List.mem_filter.mpr ⟨hp, hkeep p hp hpk⟩, hpk⟩

end MusicTracker

namespace MusicTracker

/-! ### Token-cache lemmas -/

theorem fetchToken_result (env : Env) (st : TokSt) :
    fetchToken env st = .ok (none, st) ∨
    fetchToken env st = .error () ∨
    (∃ tok e, fetchToken env st
        = .ok (some tok, ⟨some tok, some e, st.fetchCount + 1⟩)) ∨
    fetchToken env st = .ok (none, { st with fetchCount := st.fetchCount + 1 }) := by
  unfold fetchToken
  by_cases h : env.credsSet
  · simp only [h, if_true]
    cases env.tokenResp st.fetchCount with
    | ok tok e => exact Or.inr (Or.inr (Or.inl ⟨tok, env.now + e - 300, rfl⟩))
    | badStatus => exact Or.inr (Or.inr (Or.inr rfl))
    | raised => exact Or.inr (Or.inl rfl)
  · simp only [h, if_false]
    exact Or.inl rfl

theorem fetchToken_ne_cached (env : Env) (t : String) (e : Int) (c : Nat) :
    fetchToken env ⟨some t, some e, c⟩ ≠ .ok (some t, ⟨some t, some e, c⟩) := by
  intro h
  rcases fetchToken_result env ⟨some t, some e, c⟩ with h1 | h1 | ⟨tok, e', h1⟩ | h1 <;>
    rw [h1] at h <;> simp [TokSt.mk.injEq] at h

/-- C1 (code bug): an entry whose stored timestamp is timezone-aware — exactly
the format `run` itself writes — is never removed by
`cleanup_old_tracked_releases`, because comparing it with the naive cutoff
`datetime.now() - timedelta(days=days)` raises `TypeError`, which the bare
`except: pass` swallows.  Concretely, an entry recorded at epoch 0 survives a
cleanup at day 100 with the default 30-day retention even though it is
strictly older than the retention window, contradicting the claim that
exactly the strictly-older entries are removed. -/
theorem C1_cleanup_cannot_evict :
    (∀ (a b p : String) (t now days : Int),
        cleanupKeeps ⟨a, b, p, .iso t true⟩ now days = true) ∧
    cleanup_old_tracked_releases
        [("spotify_a", ⟨"A", "T", "Spotify", .iso 0 true⟩)] (100 * 86400) 30
      = [("spotify_a", ⟨"A", "T", "Spotify", .iso 0 true⟩)] ∧
    (0 : Int) < 100 * 86400 - 30 * 86400 := by
  refine ⟨?_, by decide, by decide⟩
  intro a b p t now days
  simp [cleanupKeeps, pyLt]

/-- C5 counterexample: `save_tracked_releases` performs no rename through a
temporary path at all, and a crash right after `open(..., 'w')` (the first
file operation) leaves the ledger file torn — the prior content is already
destroyed before the new mapping is written. -/
theorem C5_save_not_atomic_cex :
    (¬ ∃ tmp, tmp ≠ trackedFile ∧
        FileOp.rename tmp trackedFile ∈ save_tracked_releases c5New) ∧
    (((save_tracked_releases c5New).take 1).foldl applyOp c5Fs0) trackedFile
      = FileContent.torn := by
  constructor
  · rintro ⟨tmp, -, hmem⟩
    simp [save_tracked_releases] at hmem
  · rfl

/-- C5 (amended): `save_tracked_releases` persists the full mapping by
truncating the ledger file in place and then writing the serialization; after
the full sequence the file holds the complete mapping, but there is no
temporary file or atomic replace, and between the truncation and the write
the file is torn. -/
theorem C5_save_truncates_in_place :
    ∀ (l : Ledger) (fs : String → FileContent),
      save_tracked_releases l
          = [FileOp.openTrunc trackedFile, FileOp.write trackedFile l] ∧
      ((save_tracked_releases l).foldl applyOp fs) trackedFile = FileContent.full l ∧
      (((save_tracked_releases l).take 1).foldl applyOp fs) trackedFile
          = FileContent.torn := by
  intro l fs
  refine ⟨rfl, ?_, ?_⟩ <;> simp [save_tracked_releases, applyOp]

/-- C6: `load_tracked_releases` of a missing ledger file yields the empty
ledger (the `FileNotFoundError` handler), while a present-but-corrupt file
makes `json.load` raise; nothing below `main` catches it, so the run exits
fatally instead of proceeding with an assumed-empty ledger. -/
theorem C6_load_semantics :
    load_tracked_releases .missing = .ok ([] : Ledger) ∧
    ∀ (env : Env) (artists : List Artist),
      mainResult env artists .corrupt = .fatalExit :=
  ⟨rfl, fun _ _ => rfl⟩

/-- C8: when POLLING yields zero surviving records, `run` dispatches nothing,
returns the ledger unchanged, and does not write the ledger file. -/
theorem C8_empty_poll_short_circuit (env : Env) (artists : List Artist)
    (tracked : Ledger)
    (h : check_all_releases env artists tracked = .ok []) :
    run env artists tracked = .ok ([], tracked, false) := by
  unfold run
  by_cases ha : artists.isEmpty
  · simp [ha]
  · simp [ha, h]

/-- Witness for the short-circuit theorem at a concrete quiet environment. -/
theorem C8_empty_poll_short_circuit_witness :
    run quietEnv [c8Artist] [] = .ok ([], [], false) :=
  C8_empty_poll_short_circuit quietEnv [c8Artist] [] rfl

/-- C9 counterexample: on a cache miss the freshly fetched token is returned
for immediate use no matter how soon it expires; with a provider-reported
`expires_in` of 60 seconds the adapter uses a token that is within 5 minutes
(300 s) of its real expiry (the stored expiry is even set in the past),
contradicting "never uses a token within 5 minutes of real expiry". -/
theorem C9_fresh_token_used_near_expiry_cex :
    get_spotify_token c9Env ⟨none, none, 0⟩
        = .ok (some "tok", ⟨some "tok", some (-240), 1⟩) ∧
    c9Env.now + 60 - c9Env.now < 300 :=
  ⟨rfl, by decide⟩

/-- C9 (amended): the credential is fetched on first use (empty cache goes
straight to the POST); a cached token is reused exactly when it is non-empty
and the current time is strictly before the stored expiry; and when the
stored expiry was set from a fetch at time `t0` with provider-reported
lifetime `E` (stored expiry `t0 + E - 300`), any reuse happens strictly more
than 300 seconds before the real expiry `t0 + E`.  Only a freshly fetched
token can be used closer to its real expiry than the 5-minute margin. -/
theorem C9_token_lifecycle :
    (∀ env : Env,
        get_spotify_token env ⟨none, none, 0⟩ = fetchToken env ⟨none, none, 0⟩) ∧
    (∀ (env : Env) (t : String) (e : Int) (c : Nat),
        get_spotify_token env ⟨some t, some e, c⟩ = .ok (some t, ⟨some t, some e, c⟩)
          ↔ t ≠ "" ∧ env.now < e) ∧
    (∀ (env : Env) (t : String) (t0 E : Int) (c : Nat),
        t ≠ "" → env.now < t0 + E - 300 →
        get_spotify_token env ⟨some t, some (t0 + E - 300), c⟩
            = .ok (some t, ⟨some t, some (t0 + E - 300), c⟩)
          ∧ 300 < t0 + E - env.now) := by
  refine ⟨fun env => rfl, ?_, ?_⟩
  · intro env t e c
    constructor
    · intro h
      by_cases ht : t = ""
      · subst ht
        have hg : get_spotify_token env ⟨some "", some e, c⟩
            = fetchToken env ⟨some "", some e, c⟩ := by
          simp [get_spotify_token, tokenTruthy]
        rw [hg] at h
        exact absurd h (fetchToken_ne_cached env "" e c)
      · by_cases he : env.now < e
        · exact ⟨ht, he⟩
        · have hg : get_spotify_token env ⟨some t, some e, c⟩
              = fetchToken env ⟨some t, some e, c⟩ := by
            simp [get_spotify_token, tokenTruthy, ht, he]
          rw [hg] at h
          exact absurd h (fetchToken_ne_cached env t e c)
    · rintro ⟨ht, he⟩
      simp [get_spotify_token, tokenTruthy, ht, he]
  · intro env t t0 E c ht he
    refine ⟨?_, by omega⟩
    simp [get_spotify_token, tokenTruthy, ht, he]

/-- Witness: at time 50 a cached token with stored expiry 100 (from a fetch
at time 0 with a 400-second lifetime) is reused, 350 seconds before its real
expiry. -/
theorem C9_token_lifecycle_witness :
    get_spotify_token c9EnvW ⟨some "x", some (0 + 400 - 300), 0⟩
        = .ok (some "x", ⟨some "x", some (0 + 400 - 300), 0⟩)
      ∧ 300 < 0 + 400 - c9EnvW.now :=
  C9_token_lifecycle.2.2 c9EnvW "x" 0 400 0 (by decide) (by decide)

end MusicTracker

namespace MusicTracker

/-! ### No adapter output carries an already-tracked key -/

theorem spotifyStep_emit_not_tracked {tracked : Ledger} {cd : Int} {a : String}
    {album : SpotifyAlbum} {r : Release}
    (h : spotifyStep tracked cd a album = .emit r) :
    dictContains tracked r.track_key = false := by
  unfold spotifyStep at h
  repeat' split at h
  all_goals cases h
  all_goals exact Bool.eq_false_iff.mpr (by assumption)

theorem ytStep_emit_not_tracked {tracked : Ledger} {a : String}
    {it : YtItem} {r : Release}
    (h : ytStep tracked a it = .emit r) :
    dictContains tracked r.track_key = false := by
  unfold ytStep at h
  repeat' split at h
  all_goals cases h
  all_goals exact Bool.eq_false_iff.mpr (by assumption)

theorem processSpotifyItems_not_tracked {tracked : Ledger} {cd : Int} {a : String}
    {items : List SpotifyAlbum} {r : Release}
    (h : r ∈ processSpotifyItems tracked cd a items) :
    dictContains tracked r.track_key = false := by
  induction items with
  | nil => cases h
  | cons album rest ih =>
    rw [processSpotifyItems] at h
    rcases hs : spotifyStep tracked cd a album with - | - | r' <;> rw [hs] at h
    · cases h
    · exact ih h
    · rcases List.mem_cons.mp h with h1 | h1
      · rw [h1]; exact spotifyStep_emit_not_tracked hs
      · exact ih h1

theorem processYtItems_not_tracked {tracked : Ledger} {a : String}
    {items : List YtItem} {r : Release}
    (h : r ∈ processYtItems tracked a items) :
    dictContains tracked r.track_key = false := by
  induction items with
  | nil => cases h
  | cons it rest ih =>
    rw [processYtItems] at h
    rcases hs : ytStep tracked a it with - | - | r' <;> rw [hs] at h
    · cases h
    · exact ih h
    · rcases List.mem_cons.mp h with h1 | h1
      · rw [h1]; exact ytStep_emit_not_tracked hs
      · exact ih h1

theorem check_youtube_not_tracked {env : Env} {i : Nat} {a : Artist}
    {tracked : Ledger} {r : Release}
    (h : r ∈ check_youtube_releases env i a tracked) :
    dictContains tracked r.track_key = false := by
  unfold check_youtube_releases at h
  split at h
  · split at h
    · obtain ⟨cIdx, -, hmem⟩ := List.mem_flatMap.mp h
      unfold ytChannel at hmem
      split at hmem
      · exact processYtItems_not_tracked hmem
      · cases hmem
    · cases h
  · cases h

theorem check_melon_not_tracked {env : Env} {i : Nat} {a : Artist}
    {tracked : Ledger} {r : Release}
    (h : r ∈ check_melon_releases env i a tracked) :
    dictContains tracked r.track_key = false := by
  unfold check_melon_releases at h
  split at h
  · cases h
  · have := (List.mem_filter.mp h).2
    simpa using this

theorem check_spotify_not_tracked {env : Env} {i : Nat} {a : Artist}
    {tracked : Ledger} {st st' : TokSt} {rs : List Release} {r : Release}
    (h : check_spotify_releases env i a tracked st = .ok (rs, st'))
    (hr : r ∈ rs) : dictContains tracked r.track_key = false := by
  unfold check_spotify_releases at h
  split at h
  · injection h with h'
    injection h' with h1 h2
    subst h1; cases hr
  · split at h
    · exact Except.noConfusion h
    · injection h with h'
      injection h' with h1 h2
      subst h1; cases hr
    · split at h
      · injection h with h'
        injection h' with h1 h2
        subst h1
        exact processSpotifyItems_not_tracked hr
      · injection h with h'
        injection h' with h1 h2
        subst h1; cases hr

theorem checkArtist_not_tracked {env : Env} {i : Nat} {a : Artist}
    {tracked : Ledger} {st st' : TokSt} {rs : List Release} {r : Release}
    (h : checkArtist env i a tracked st = .ok (rs, st'))
    (hr : r ∈ rs) : dictContains tracked r.track_key = false := by
  unfold checkArtist at h
  rcases hsp : check_spotify_releases env i a tracked st with e' | ⟨sp, st''⟩ <;>
    rw [hsp] at h
  · exact Except.noConfusion h
  · injection h with h'
    injection h' with h1 h2
    subst h1
    rcases List.mem_append.mp hr with h3 | h3
    · rcases List.mem_append.mp h3 with h4 | h4
      · exact check_spotify_not_tracked hsp h4
      · exact check_youtube_not_tracked h4
    · exact check_melon_not_tracked h3

theorem check_all_aux_not_tracked {env : Env} {tracked : Ledger} :
    ∀ {artists : List Artist} {i : Nat} {st : TokSt} {rs : List Release} {r : Release},
      check_all_aux env tracked artists i st = .ok rs → r ∈ rs →
      dictContains tracked r.track_key = false := by
  intro artists
  induction artists with
  | nil =>
    intro i st rs r h hr
    injection h with h'
    subst h'; cases hr
  | cons a rest ih =>
    intro i st rs r h hr
    unfold check_all_aux at h
    split at h
    · exact Except.noConfusion h
    · rename_i rsa st' hca
      split at h
      · exact Except.noConfusion h
      · rename_i more hrest
        injection h with h'
        subst h'
        rcases List.mem_append.mp hr with h1 | h1
        · exact checkArtist_not_tracked hca h1
        · exact ih hrest h1

theorem check_all_not_tracked {env : Env} {artists : List Artist} {tracked : Ledger}
    {rs : List Release} {r : Release}
    (h : check_all_releases env artists tracked = .ok rs) (hr : r ∈ rs) :
    dictContains tracked r.track_key = false :=
  check_all_aux_not_tracked h hr

end MusicTracker

namespace MusicTracker

/-! ### A tracked key survives a run and is never dispatched -/

theorem runSeq_cons (env : Env) (arts : List Artist)
    (rest : List (Env × List Artist)) (l : Ledger) :
    runSeq ((env, arts) :: rest) l
      = ((runOutcome env arts l).1 :: (runSeq rest (runOutcome env arts l).2).1,
         (runSeq rest (runOutcome env arts l).2).2) := rfl

theorem run_preserves_entry {env : Env} {artists : List Artist} {tracked : Ledger}
    {k : String} {e : Entry} {d : List Release} {l : Ledger} {w : Bool}
    (hm : (k, e) ∈ tracked) (hkeep : cleanupKeeps e env.now 30 = true)
    (hrun : run env artists tracked = .ok (d, l, w)) :
    (∀ r ∈ d, r.track_key ≠ k) ∧ (k, e) ∈ l := by
  unfold run at hrun
  by_cases ha : artists.isEmpty
  · rw [if_pos ha] at hrun
    injection hrun with h'
    injection h' with h1 h2
    injection h2 with h3 h4
    subst h1; subst h3
    exact ⟨fun r hr => absurd hr (List.not_mem_nil r), hm⟩
  · rw [if_neg ha] at hrun
    split at hrun
    · exact Except.noConfusion hrun
    · rename_i newRs hca
      by_cases hne : newRs.isEmpty
      · rw [if_pos hne] at hrun
        injection hrun with h'
        injection h' with h1 h2
        injection h2 with h3 h4
        subst h1; subst h3
        exact ⟨fun r hr => absurd hr (List.not_mem_nil r), hm⟩
      · rw [if_neg hne] at hrun
        injection hrun with h'
        injection h' with h1 h2
        injection h2 with h3 h4
        subst h1; subst h3
        constructor
        · intro r hr hrk
          have h5 := check_all_not_tracked hca hr
          rw [hrk, contains_of_mem hm] at h5
          exact Bool.noConfusion h5
        · refine mem_cleanup_of_kept (mem_recordAll_of_not_key hm ?_) hkeep
          intro r hr hrk
          have h5 := check_all_not_tracked hca hr
          rw [hrk, contains_of_mem hm] at h5
          exact Bool.noConfusion h5

/-- C3: a dedup key present in the ledger at POLLING start is never carried
by a record handed to the webhook sender, in that run or any later run, and
its entry survives every run unchanged, as long as the cleanup keeps it
(which it does in particular for every timezone-aware timestamp this program
writes). -/
theorem C3_tracked_key_never_redispatched :
    ∀ (steps : List (Env × List Artist)) (l0 : Ledger) (k : String) (e : Entry),
      (k, e) ∈ l0 →
      (∀ s ∈ steps, cleanupKeeps e s.1.now 30 = true) →
      (∀ dl ∈ (runSeq steps l0).1, ∀ r ∈ dl, r.track_key ≠ k) ∧
        (k, e) ∈ (runSeq steps l0).2 := by
  intro steps
  induction steps with
  | nil =>
    intro l0 k e hm _
    exact ⟨fun dl hdl => absurd hdl (List.not_mem_nil dl), hm⟩
  | cons s rest ih =>
    intro l0 k e hm hkeep
    obtain ⟨env, arts⟩ := s
    rw [runSeq_cons]
    have hstep : (∀ r ∈ (runOutcome env arts l0).1, r.track_key ≠ k) ∧
        (k, e) ∈ (runOutcome env arts l0).2 := by
      unfold runOutcome
      rcases hro : run env arts l0 with e' | ⟨d, l, w⟩
      · exact ⟨fun r hr => absurd hr (List.not_mem_nil r), hm⟩
      · exact run_preserves_entry hm
          (hkeep (env, arts) (List.mem_cons_self _ _)) hro
    have hrest := ih (runOutcome env arts l0).2 k e hstep.2
      (fun s hs => hkeep s (List.mem_cons_of_mem _ hs))
    refine ⟨?_, hrest.2⟩
    intro dl hdl
    rcases List.mem_cons.mp hdl with h1 | h1
    · rw [h1]; exact hstep.1
    · exact hrest.1 dl h1

/-- Witness: a ledger holding `spotify_a` with an aware timestamp, run once
through a quiet environment: the key is never dispatched and survives. -/
theorem C3_tracked_key_never_redispatched_witness :
    (∀ dl ∈ (runSeq c3Steps c3L0).1, ∀ r ∈ dl, r.track_key ≠ "spotify_a") ∧
      ("spotify_a", c3Entry) ∈ (runSeq c3Steps c3L0).2 :=
  C3_tracked_key_never_redispatched c3Steps c3L0 "spotify_a" c3Entry
    (by decide) (by decide)

end MusicTracker

namespace MusicTracker

/-! ### Key multiplicity lemmas -/

theorem contains_eq_false_iff {d : Ledger} {k : String} :
    dictContains d k = false ↔ ∀ p ∈ d, p.1 ≠ k := by
  simp [dictContains]

theorem keyCount_eq_zero_of_not_contains {d : Ledger} {k : String}
    (h : dictContains d k = false) : keyCount d k = 0 := by
  rw [keyCount, List.countP_eq_zero]
  intro p hp
  simp only [decide_eq_true_eq]
  exact contains_eq_false_iff.mp h p hp

theorem countP_eq_of_forall {α : Type} {l : List α} {p q : α → Bool}
    (h : ∀ a ∈ l, p a = q a) : l.countP p = l.countP q := by
  induction l with
  | nil => rfl
  | cons a rest ih =>
    rw [List.countP_cons, List.countP_cons, h a (List.mem_cons_self _ _),
      ih (fun b hb => h b (List.mem_cons_of_mem _ hb))]

theorem keyCount_dictInsert (d : Ledger) (k k' : String) (v : Entry) :
    keyCount (dictInsert d k' v) k
      = if dictContains d k' then keyCount d k
        else if k' = k then keyCount d k + 1 else keyCount d k := by
  unfold dictInsert keyCount
  by_cases hc : dictContains d k'
  · simp only [hc, if_true]
    rw [List.countP_map]
    apply countP_eq_of_forall
    intro p hp
    by_cases hq : p.1 = k' <;> simp [Function.comp, hq]
  · rw [if_neg hc, if_neg hc, List.countP_append]
    by_cases hk : k' = k <;> simp [hk, List.countP_cons]

theorem keyCount_recordAll_of_contains {d : Ledger} {k : String} {rs : List Release}
    {now : Int} (hc : dictContains d k = true) :
    keyCount (recordAll d rs now) k = keyCount d k := by
  induction rs generalizing d with
  | nil => rfl
  | cons r rest ih =>
    rw [recordAll_cons, ih (contains_dictInsert_of_contains _ hc), keyCount_dictInsert]
    by_cases h1 : dictContains d r.track_key
    · simp [h1]
    · have h2 : ¬(r.track_key = k) := fun hrk => by rw [hrk, hc] at h1; exact h1 rfl
      simp [h1, h2]

theorem contains_dictInsert_false {d : Ledger} {k k' : String} (v : Entry)
    (h : dictContains d k = false) (hne : k' ≠ k) :
    dictContains (dictInsert d k' v) k = false := by
  rw [contains_eq_false_iff] at h ⊢
  intro p hp
  rcases mem_dictInsert hp with h1 | h1
  · exact h p h1
  · rw [h1]; exact hne

theorem keyCount_recordAll_of_not_contains {d : Ledger} {k : String}
    {rs : List Release} {now : Int} (hc : dictContains d k = false) :
    keyCount (recordAll d rs now) k
      = if rs.any (fun r => r.track_key = k) then 1 else 0 := by
  induction rs generalizing d with
  | nil => simp [recordAll, keyCount_eq_zero_of_not_contains hc]
  | cons r rest ih =>
    rw [recordAll_cons]
    by_cases h2 : r.track_key = k
    · subst h2
      rw [keyCount_recordAll_of_contains (contains_dictInsert_self _),
        keyCount_dictInsert]
      simp [hc, keyCount_eq_zero_of_not_contains hc]
    · have hc' : dictContains (dictInsert d r.track_key (mkEntry r now)) k = false :=
        contains_dictInsert_false _ hc h2
      rw [ih hc']
      simp [h2]

theorem keyCount_cleanup_of_kept {d : Ledger} {k : String} {now days : Int}
    (h : ∀ p ∈ d, p.1 = k → cleanupKeeps p.2 now days = true) :
    keyCount (cleanup_old_tracked_releases d now days) k = keyCount d k := by
  unfold cleanup_old_tracked_releases keyCount
  induction d with
  | nil => rfl
  | cons p rest ih =>
    rw [List.filter_cons]
    by_cases hp : cleanupKeeps p.2 now days = true
    · rw [if_pos hp, List.countP_cons, List.countP_cons,
        ih (fun q hq hqk => h q (List.mem_cons_of_mem _ hq) hqk)]
    · rw [if_neg hp]
      have hpk : ¬(p.1 = k) := fun hk => hp (h p (List.mem_cons_self _ _) hk)
      rw [List.countP_cons, ih (fun q hq hqk => h q (List.mem_cons_of_mem _ hq) hqk)]
      simp [hpk]

/-- C10: filtering consults only the ledger as loaded at the start of the
run: every record handed to the webhook sender has a key absent from that
ledger, and however many dispatched records share one absent key `k`
(possibly several, from different (artist, adapter) invocations), the ledger
after the run holds exactly one binding for `k`. -/
theorem C10_within_run_duplicates :
    ∀ (env : Env) (artists : List Artist) (tracked : Ledger)
      (d : List Release) (l : Ledger) (w : Bool) (k : String),
      run env artists tracked = .ok (d, l, w) →
      dictContains tracked k = false →
      1 ≤ relCount d k →
      (∀ r ∈ d, dictContains tracked r.track_key = false) ∧ keyCount l k = 1 := by
  intro env artists tracked d l w k hrun hc hcnt
  unfold run at hrun
  by_cases ha : artists.isEmpty
  · rw [if_pos ha] at hrun
    injection hrun with h'
    injection h' with h1 h2
    subst h1
    simp [relCount] at hcnt
  · rw [if_neg ha] at hrun
    split at hrun
    · exact Except.noConfusion hrun
    · rename_i newRs hca
      by_cases hne : newRs.isEmpty
      · rw [if_pos hne] at hrun
        injection hrun with h'
        injection h' with h1 h2
        subst h1
        simp [relCount] at hcnt
      · rw [if_neg hne] at hrun
        injection hrun with h'
        injection h' with h1 h2
        injection h2 with h3 h4
        subst h1; subst h3
        constructor
        · intro r hr; exact check_all_not_tracked hca hr
        · have hcnt' : 0 < List.countP (fun r => decide (r.track_key = k)) newRs := hcnt
          have hany : newRs.any (fun r => decide (r.track_key = k)) = true := by
            rcases List.countP_pos_iff.mp hcnt' with ⟨r, hr, hp⟩
            exact List.any_eq_true.mpr ⟨r, hr, hp⟩
          have hkept : ∀ p ∈ recordAll tracked newRs env.nowUtc, p.1 = k →
              cleanupKeeps p.2 env.now 30 = true := by
            intro p hp hpk
            rcases mem_recordAll hp with h5 | ⟨r, hr, h5⟩
            · exfalso
              have h6 : dictContains tracked p.1 = true := contains_of_mem h5
              rw [hpk, hc] at h6
              exact Bool.noConfusion h6
            · rw [h5]; simp [mkEntry, cleanupKeeps, pyLt]
          rw [keyCount_cleanup_of_kept hkept,
            keyCount_recordAll_of_not_contains hc]
          simp [hany]

/-- Witness: two artists whose Spotify responses both contain album id `x`
(a collaboration): both records are dispatched, one binding remains. -/
theorem C10_within_run_duplicates_witness :
    (∀ r ∈ [c10RecA, c10RecB], dictContains [] r.track_key = false) ∧
      keyCount c10L "spotify_x" = 1 :=
  C10_within_run_duplicates c10Env c10Artists [] [c10RecA, c10RecB] c10L true
    "spotify_x" rfl rfl (by decide)

end MusicTracker

namespace MusicTracker

/-- C7 counterexample: a Spotify response [well-formed album g, album b
missing `name`, well-formed album h] yields only the record for g — the
`KeyError` on the mid-batch album b aborts the loop and the well-formed
sibling h after it is dropped — although without b both siblings yield
records.  This contradicts "only the offending item is skipped, all sibling
items are still processed" for the Spotify adapter. -/
theorem C7_sibling_dropped_cex :
    processSpotifyItems [] 0 "A" [c7Good, c7Bad, c7Good2] = [c7GoodRec] ∧
    processSpotifyItems [] 0 "A" [c7Good, c7Good2] = [c7GoodRec, c7Good2Rec] :=
  ⟨rfl, rfl⟩

/-- C7 (amended): only the Melon scraper isolates malformed items — a row
its per-row handler rejects, at any position of the scanned window, is
skipped and all siblings before and after it are still processed.  For
Spotify and YouTube the `try` wraps the whole item loop (per response for
Spotify, per channel for YouTube), so an item that raises, at any position,
ends the batch: the output is exactly the full processing of the items
before it (earlier siblings kept), and every item after it is dropped.
The accompanying clauses show a concrete malformed shape for each adapter:
a Melon row without a title element is rejected by the row handler, a
Spotify album reaching the record build without a `name` key raises, and a
YouTube item without `id.videoId` raises. -/
theorem C7_malformed_item_handling :
    (∀ (a : String) (now : Int) (s : MelonSong) (pre post : List MelonSong),
        (pre ++ s :: post).length ≤ 10 → melonItem a now s = none →
        scrape_artist_songs (.ok (pre ++ s :: post)) a now
          = scrape_artist_songs (.ok (pre ++ post)) a now) ∧
    (∀ (a : String) (now : Int) (s : MelonSong),
        s.title = none → melonItem a now s = none) ∧
    (∀ (tracked : Ledger) (cd : Int) (a : String) (bad : SpotifyAlbum)
        (pre rest : List SpotifyAlbum),
        spotifyStep tracked cd a bad = .abort →
        processSpotifyItems tracked cd a (pre ++ bad :: rest)
          = processSpotifyItems tracked cd a pre) ∧
    (∀ (tracked : Ledger) (cd : Int) (a : String) (bad : SpotifyAlbum)
        (bid : String) (bd : Int),
        bad.id = some bid → bad.release_date = some bd → cd ≤ bd →
        dictContains tracked ("spotify_" ++ bid) = false → bad.name = none →
        spotifyStep tracked cd a bad = .abort) ∧
    (∀ (tracked : Ledger) (a : String) (bad : YtItem) (pre rest : List YtItem),
        ytStep tracked a bad = .abort →
        processYtItems tracked a (pre ++ bad :: rest)
          = processYtItems tracked a pre) ∧
    (∀ (tracked : Ledger) (a : String) (bad : YtItem),
        bad.videoId = none → ytStep tracked a bad = .abort) := by
  refine ⟨?_, ?_, ?_, ?_, ?_, ?_⟩
  · intro a now s pre post hlen hnone
    have hl2 : (pre ++ post).length ≤ 10 := by
      simp only [List.length_append, List.length_cons] at hlen ⊢
      omega
    have h1 : (pre ++ s :: post).take 10 = pre ++ s :: post :=
      List.take_of_length_le hlen
    have h2 : (pre ++ post).take 10 = pre ++ post := List.take_of_length_le hl2
    simp [scrape_artist_songs, h1, h2, List.filterMap_append, List.filterMap_cons,
      hnone]
  · intro a now s ht
    unfold melonItem
    rw [ht]
    by_cases hr : s.raisesOther <;> simp [hr]
  · intro tracked cd a bad pre rest habort
    induction pre with
    | nil =>
      show processSpotifyItems tracked cd a (bad :: rest) = []
      rw [processSpotifyItems, habort]
    | cons p pre' ih =>
      rw [List.cons_append, processSpotifyItems, processSpotifyItems]
      rcases hs : spotifyStep tracked cd a p with - | - | r
      all_goals first
        | rfl
        | exact ih
        | rw [ih]
  · intro tracked cd a bad bid bd hid hrd hcd hc hnm
    simp [spotifyStep, hid, hrd, hcd, hc, hnm]
  · intro tracked a bad pre rest habort
    induction pre with
    | nil =>
      show processYtItems tracked a (bad :: rest) = []
      rw [processYtItems, habort]
    | cons p pre' ih =>
      rw [List.cons_append, processYtItems, processYtItems]
      rcases hs : ytStep tracked a p with - | - | r
      all_goals first
        | rfl
        | exact ih
        | rw [ih]
  · intro tracked a bad hvid
    simp [ytStep, hvid]

/-- Witness: each clause of the malformed-item theorem at a concrete
mid-batch input — a well-formed sibling sits before the malformed item and
another after it. -/
theorem C7_malformed_item_handling_witness :
    (scrape_artist_songs (.ok ([c7SongOk] ++ c7MelonBad :: [c7SongOk2])) "A" 864000
        = scrape_artist_songs (.ok ([c7SongOk] ++ [c7SongOk2])) "A" 864000) ∧
    melonItem "A" 864000 c7MelonBad = none ∧
    (processSpotifyItems [] 0 "A" ([c7Good] ++ c7Bad :: [c7Good2])
        = processSpotifyItems [] 0 "A" [c7Good]) ∧
    spotifyStep [] 0 "A" c7Bad = .abort ∧
    (processYtItems [] "A" ([c7YtGood] ++ c7YtBad :: [])
        = processYtItems [] "A" [c7YtGood]) ∧
    ytStep [] "A" c7YtBad = .abort := by
  obtain ⟨h1, h2, h3, h4, h5, h6⟩ := C7_malformed_item_handling
  exact ⟨h1 "A" 864000 c7MelonBad [c7SongOk] [c7SongOk2] (by decide)
           (h2 "A" 864000 c7MelonBad rfl),
         h2 "A" 864000 c7MelonBad rfl,
         h3 [] 0 "A" c7Bad [c7Good] [c7Good2]
           (h4 [] 0 "A" c7Bad "b" 5 rfl rfl (by decide) rfl rfl),
         h4 [] 0 "A" c7Bad "b" 5 rfl rfl (by decide) rfl rfl,
         h5 [] "A" c7YtBad [c7YtGood] [] (h6 [] "A" c7YtBad rfl),
         h6 [] "A" c7YtBad rfl⟩

end MusicTracker

namespace MusicTracker

/-! ### Handled per-pair failures do not affect other pairs -/

theorem run_congr_check_all {env1 env2 : Env} (artists : List Artist)
    (tracked : Ledger) (hnow : env1.now = env2.now)
    (hutc : env1.nowUtc = env2.nowUtc)
    (hca : check_all_releases env1 artists tracked
        = check_all_releases env2 artists tracked) :
    run env1 artists tracked = run env2 artists tracked := by
  unfold run
  rw [hca, hnow, hutc]

theorem check_spotify_set_handled (env : Env) (i : Nat) (r : SpotifyResp)
    (hr : spotifyHandled r = true) (aIdx : Nat) (a : Artist) (tracked : Ledger)
    (st : TokSt) :
    check_spotify_releases (setSpotifyResp env i r) aIdx a tracked st
      = check_spotify_releases (setSpotifyResp env i (.ok (some []))) aIdx a tracked st := by
  unfold check_spotify_releases
  cases a.spotify_id with
  | none => rfl
  | some sid =>
    rw [show get_spotify_token (setSpotifyResp env i r) st
        = get_spotify_token (setSpotifyResp env i (.ok (some []))) st from rfl]
    cases get_spotify_token (setSpotifyResp env i (.ok (some []))) st with
    | error e => rfl
    | ok p =>
      obtain ⟨tok, st'⟩ := p
      cases tok with
      | none => rfl
      | some t =>
        by_cases hij : aIdx = i
        · subst hij
          have h1 : (setSpotifyResp env aIdx r).spotifyResp aIdx = r := by
            simp [setSpotifyResp]
          have h2 : (setSpotifyResp env aIdx (.ok (some []))).spotifyResp aIdx
              = .ok (some []) := by
            simp [setSpotifyResp]
          rw [h1, h2]
          cases r with
          | ok items => exact absurd hr (by simp [spotifyHandled])
          | rate429 => rfl
          | errStatus => rfl
          | raised => rfl
        · have h1 : (setSpotifyResp env i r).spotifyResp aIdx
              = env.spotifyResp aIdx := by
            simp [setSpotifyResp, hij]
          have h2 : (setSpotifyResp env i (.ok (some []))).spotifyResp aIdx
              = env.spotifyResp aIdx := by
            simp [setSpotifyResp, hij]
          rw [h1, h2]
          rfl

theorem flatMap_congr_mem {α β : Type} {l : List α} {f g : α → List β}
    (h : ∀ a ∈ l, f a = g a) : l.flatMap f = l.flatMap g := by
  induction l with
  | nil => rfl
  | cons a rest ih =>
    rw [List.flatMap_cons, List.flatMap_cons, h a (List.mem_cons_self _ _),
      ih (fun b hb => h b (List.mem_cons_of_mem _ hb))]

theorem check_youtube_set_handled (env : Env) (i j : Nat) (r : YtResp)
    (hr : ytHandled r = true) (aIdx : Nat) (a : Artist) (tracked : Ledger) :
    check_youtube_releases (setYtResp env i j r) aIdx a tracked
      = check_youtube_releases (setYtResp env i j (.ok (some []))) aIdx a tracked := by
  unfold check_youtube_releases
  simp only [setYtResp]
  by_cases ht : a.youtube_channel_id.truthy
  · by_cases hk : env.ytKeySet
    · rw [if_pos ht, if_pos ht, if_pos hk, if_pos hk]
      apply flatMap_congr_mem
      intro cIdx hc
      by_cases hij : aIdx = i ∧ cIdx = j
      · rw [if_pos hij, if_pos hij]
        cases r with
        | ok items => exact absurd hr (by simp [ytHandled])
        | quota403 => rfl
        | errStatus => rfl
        | raised => rfl
      · rw [if_neg hij, if_neg hij]
    · rw [if_pos ht, if_pos ht, if_neg hk, if_neg hk]
  · rw [if_neg ht, if_neg ht]

theorem check_melon_set_failed (env : Env) (i : Nat) (r : MelonResp)
    (hr : melonFailed r = true) (aIdx : Nat) (a : Artist) (tracked : Ledger) :
    check_melon_releases (setMelonResp env i r) aIdx a tracked
      = check_melon_releases (setMelonResp env i (.ok [])) aIdx a tracked := by
  unfold check_melon_releases
  cases a.melon_url with
  | none => rfl
  | some u =>
    by_cases hij : aIdx = i
    · subst hij
      have h1 : (setMelonResp env aIdx r).melonResp aIdx = r := by
        simp [setMelonResp]
      have h2 : (setMelonResp env aIdx (.ok [])).melonResp aIdx = .ok [] := by
        simp [setMelonResp]
      rw [h1, h2]
      cases r with
      | ok songs => exact absurd hr (by simp [melonFailed])
      | httpErr => rfl
      | noTable => rfl
      | raised => rfl
    · have h1 : (setMelonResp env i r).melonResp aIdx = env.melonResp aIdx := by
        simp [setMelonResp, hij]
      have h2 : (setMelonResp env i (.ok [])).melonResp aIdx
          = env.melonResp aIdx := by
        simp [setMelonResp, hij]
      rw [h1, h2]
      rfl

theorem checkArtist_set_spotify (env : Env) (i : Nat) (r : SpotifyResp)
    (hr : spotifyHandled r = true) (aIdx : Nat) (a : Artist) (tracked : Ledger)
    (st : TokSt) :
    checkArtist (setSpotifyResp env i r) aIdx a tracked st
      = checkArtist (setSpotifyResp env i (.ok (some []))) aIdx a tracked st := by
  unfold checkArtist
  rw [check_spotify_set_handled env i r hr aIdx a tracked st]
  rfl

theorem checkArtist_set_yt (env : Env) (i j : Nat) (r : YtResp)
    (hr : ytHandled r = true) (aIdx : Nat) (a : Artist) (tracked : Ledger)
    (st : TokSt) :
    checkArtist (setYtResp env i j r) aIdx a tracked st
      = checkArtist (setYtResp env i j (.ok (some []))) aIdx a tracked st := by
  unfold checkArtist
  rw [check_youtube_set_handled env i j r hr aIdx a tracked]
  rfl

theorem checkArtist_set_melon (env : Env) (i : Nat) (r : MelonResp)
    (hr : melonFailed r = true) (aIdx : Nat) (a : Artist) (tracked : Ledger)
    (st : TokSt) :
    checkArtist (setMelonResp env i r) aIdx a tracked st
      = checkArtist (setMelonResp env i (.ok [])) aIdx a tracked st := by
  unfold checkArtist
  rw [check_melon_set_failed env i r hr aIdx a tracked]
  rfl

theorem check_all_aux_set_spotify (env : Env) (i : Nat) (r : SpotifyResp)
    (hr : spotifyHandled r = true) (tracked : Ledger) :
    ∀ (artists : List Artist) (aIdx : Nat) (st : TokSt),
      check_all_aux (setSpotifyResp env i r) tracked artists aIdx st
        = check_all_aux (setSpotifyResp env i (.ok (some []))) tracked artists aIdx st := by
  intro artists
  induction artists with
  | nil => intro aIdx st; rfl
  | cons a rest ih =>
    intro aIdx st
    unfold check_all_aux
    rw [checkArtist_set_spotify env i r hr aIdx a tracked st]
    simp only [ih]

theorem check_all_aux_set_yt (env : Env) (i j : Nat) (r : YtResp)
    (hr : ytHandled r = true) (tracked : Ledger) :
    ∀ (artists : List Artist) (aIdx : Nat) (st : TokSt),
      check_all_aux (setYtResp env i j r) tracked artists aIdx st
        = check_all_aux (setYtResp env i j (.ok (some []))) tracked artists aIdx st := by
  intro artists
  induction artists with
  | nil => intro aIdx st; rfl
  | cons a rest ih =>
    intro aIdx st
    unfold check_all_aux
    rw [checkArtist_set_yt env i j r hr aIdx a tracked st]
    simp only [ih]

theorem check_all_aux_set_melon (env : Env) (i : Nat) (r : MelonResp)
    (hr : melonFailed r = true) (tracked : Ledger) :
    ∀ (artists : List Artist) (aIdx : Nat) (st : TokSt),
      check_all_aux (setMelonResp env i r) tracked artists aIdx st
        = check_all_aux (setMelonResp env i (.ok [])) tracked artists aIdx st := by
  intro artists
  induction artists with
  | nil => intro aIdx st; rfl
  | cons a rest ih =>
    intro aIdx st
    unfold check_all_aux
    rw [checkArtist_set_melon env i r hr aIdx a tracked st]
    simp only [ih]

/-- C4 counterexample: with one artist configured for Spotify and Melon, an
exception raised during the Spotify token POST propagates out of
`check_all_releases` and aborts the whole run — nothing is dispatched and the
ledger file is untouched — even though the Melon pair had a valid new record
(dispatched when the token fetch merely returns a non-200 status instead).
This contradicts "records from all other (artist, platform) pairs are still
filtered, recorded, and dispatched in the same run". -/
theorem C4_token_exception_aborts_run_cex :
    run c4EnvBad c4Artists [] = .error () ∧
    runOutcome c4EnvBad c4Artists [] = ([], []) ∧
    (runOutcome c4EnvOk c4Artists []).1 = [c4MelonRec] :=
  ⟨rfl, rfl, rfl⟩

/-- C4 (amended): a per-pair fetch failure that the code handles — a non-200
or exception-caught Spotify albums GET, any YouTube channel failure, any
Melon failure — behaves exactly like an empty successful response: the
failing pair contributes zero records and the run (dispatch, recording,
persistence) is identical in every other respect.  Isolation does not extend
to an exception raised during the Spotify token POST, which aborts the whole
run (see the counterexample). -/
theorem C4_handled_failures_isolated :
    ∀ (env : Env) (artists : List Artist) (tracked : Ledger) (i j : Nat)
      (rs : SpotifyResp) (ry : YtResp) (rm : MelonResp),
      (spotifyHandled rs = true →
        run (setSpotifyResp env i rs) artists tracked
          = run (setSpotifyResp env i (.ok (some []))) artists tracked) ∧
      (ytHandled ry = true →
        run (setYtResp env i j ry) artists tracked
          = run (setYtResp env i j (.ok (some []))) artists tracked) ∧
      (melonFailed rm = true →
        run (setMelonResp env i rm) artists tracked
          = run (setMelonResp env i (.ok [])) artists tracked) := by
  intro env artists tracked i j rs ry rm
  refine ⟨fun hr => ?_, fun hr => ?_, fun hr => ?_⟩
  · exact run_congr_check_all artists tracked rfl rfl
      (check_all_aux_set_spotify env i rs hr tracked artists 0 ⟨none, none, 0⟩)
  · exact run_congr_check_all artists tracked rfl rfl
      (check_all_aux_set_yt env i j ry hr tracked artists 0 ⟨none, none, 0⟩)
  · exact run_congr_check_all artists tracked rfl rfl
      (check_all_aux_set_melon env i rm hr tracked artists 0 ⟨none, none, 0⟩)

/-- Witness: each clause of the isolation theorem at a concrete environment
and artist list. -/
theorem C4_handled_failures_isolated_witness :
    (run (setSpotifyResp c4EnvOk 0 .errStatus) c4Artists []
        = run (setSpotifyResp c4EnvOk 0 (.ok (some []))) c4Artists []) ∧
    (run (setYtResp c4EnvOk 0 0 .quota403) c4Artists []
        = run (setYtResp c4EnvOk 0 0 (.ok (some []))) c4Artists []) ∧
    (run (setMelonResp c4EnvOk 0 .raised) c4Artists []
        = run (setMelonResp c4EnvOk 0 (.ok [])) c4Artists []) := by
  obtain ⟨h1, h2, h3⟩ :=
    C4_handled_failures_isolated c4EnvOk c4Artists [] 0 0 .errStatus .quota403 .raised
  exact ⟨h1 rfl, h2 rfl, h3 rfl⟩

end MusicTracker

namespace MusicTracker

/-! ### Second run over a grown ledger yields nothing (step level) -/

theorem spotifyStep_wf_no_abort {tracked : Ledger} {cd : Int} {a : String}
    {album : SpotifyAlbum} (hwf : spotifyAlbumWF album = true) :
    spotifyStep tracked cd a album ≠ .abort := by
  intro h
  unfold spotifyStep at h
  repeat' split at h
  all_goals try simp_all [spotifyAlbumWF]
  all_goals
    rename_i hall
    rcases hwfn : album.name with - | nm
    · simp_all [spotifyAlbumWF]
    · rcases hwft : album.album_type with - | ty
      · simp_all [spotifyAlbumWF]
      · rcases hwfu : album.url with - | u
        · simp_all [spotifyAlbumWF]
        · rcases hwfi : album.images with - | imgs
          · simp_all [spotifyAlbumWF]
          · exact hall nm ty u imgs hwfn hwft hwfu hwfi

theorem spotifyStep_skip_mono {tracked tracked' : Ledger} {cd : Int} {a : String}
    {album : SpotifyAlbum}
    (hmono : ∀ k, dictContains tracked k = true → dictContains tracked' k = true)
    (hs : spotifyStep tracked cd a album = .skip) :
    spotifyStep tracked' cd a album = .skip := by
  unfold spotifyStep at hs ⊢
  repeat' split at hs
  all_goals cases hs
  all_goals simp_all [hmono]

theorem spotifyStep_emit_to_skip {tracked tracked' : Ledger} {cd : Int} {a : String}
    {album : SpotifyAlbum} {r : Release}
    (hs : spotifyStep tracked cd a album = .emit r)
    (hc : dictContains tracked' r.track_key = true) :
    spotifyStep tracked' cd a album = .skip := by
  unfold spotifyStep at hs ⊢
  repeat' split at hs
  all_goals cases hs
  all_goals simp_all

theorem ytStep_wf_no_abort {tracked : Ledger} {a : String} {it : YtItem}
    (hwf : ytItemWF it = true) : ytStep tracked a it ≠ .abort := by
  intro h
  unfold ytStep at h
  repeat' split at h
  all_goals try simp_all [ytItemWF]
  all_goals
    rename_i hall
    rcases hwfp : it.publishedAt with - | pa
    · simp_all [ytItemWF]
    · rcases hwft : it.title with - | t0
      · simp_all [ytItemWF]
      · rcases hwfh : it.thumb with - | th
        · simp_all [ytItemWF]
        · exact hall pa t0 th hwfp hwft hwfh

theorem ytStep_skip_mono {tracked tracked' : Ledger} {a : String} {it : YtItem}
    (hmono : ∀ k, dictContains tracked k = true → dictContains tracked' k = true)
    (hs : ytStep tracked a it = .skip) :
    ytStep tracked' a it = .skip := by
  unfold ytStep at hs ⊢
  repeat' split at hs
  all_goals cases hs
  all_goals simp_all [hmono]

theorem ytStep_emit_to_skip {tracked tracked' : Ledger} {a : String} {it : YtItem}
    {r : Release}
    (hs : ytStep tracked a it = .emit r)
    (hc : dictContains tracked' r.track_key = true) :
    ytStep tracked' a it = .skip := by
  unfold ytStep at hs ⊢
  repeat' split at hs
  all_goals cases hs
  all_goals simp_all

theorem processSpotifyItems_second_run {tracked tracked' : Ledger} {cd : Int}
    {a : String} :
    ∀ {items : List SpotifyAlbum},
      items.all spotifyAlbumWF = true →
      (∀ k, dictContains tracked k = true → dictContains tracked' k = true) →
      (∀ r ∈ processSpotifyItems tracked cd a items,
          dictContains tracked' r.track_key = true) →
      processSpotifyItems tracked' cd a items = [] := by
  intro items
  induction items with
  | nil => intro _ _ _; rfl
  | cons album rest ih =>
    intro hwf hmono hcov
    have hwa : spotifyAlbumWF album = true := by
      rw [List.all_cons] at hwf
      exact (Bool.and_eq_true_iff.mp hwf).1
    have hwr : rest.all spotifyAlbumWF = true := by
      rw [List.all_cons] at hwf
      exact (Bool.and_eq_true_iff.mp hwf).2
    rcases hs : spotifyStep tracked cd a album with - | - | r
    · exact absurd hs (spotifyStep_wf_no_abort hwa)
    · have hs' : spotifyStep tracked' cd a album = .skip :=
        spotifyStep_skip_mono hmono hs
      rw [processSpotifyItems, hs']
      apply ih hwr hmono
      intro r hr
      apply hcov
      rw [processSpotifyItems, hs]
      exact hr
    · have hhead : dictContains tracked' r.track_key = true := by
        apply hcov
        rw [processSpotifyItems, hs]
        exact List.mem_cons_self _ _
      have hs' : spotifyStep tracked' cd a album = .skip :=
        spotifyStep_emit_to_skip hs hhead
      rw [processSpotifyItems, hs']
      apply ih hwr hmono
      intro r' hr'
      apply hcov
      rw [processSpotifyItems, hs]
      exact List.mem_cons_of_mem _ hr'

theorem processYtItems_second_run {tracked tracked' : Ledger} {a : String} :
    ∀ {items : List YtItem},
      items.all ytItemWF = true →
      (∀ k, dictContains tracked k = true → dictContains tracked' k = true) →
      (∀ r ∈ processYtItems tracked a items,
          dictContains tracked' r.track_key = true) →
      processYtItems tracked' a items = [] := by
  intro items
  induction items with
  | nil => intro _ _ _; rfl
  | cons it rest ih =>
    intro hwf hmono hcov
    have hwa : ytItemWF it = true := by
      rw [List.all_cons] at hwf
      exact (Bool.and_eq_true_iff.mp hwf).1
    have hwr : rest.all ytItemWF = true := by
      rw [List.all_cons] at hwf
      exact (Bool.and_eq_true_iff.mp hwf).2
    rcases hs : ytStep tracked a it with - | - | r
    · exact absurd hs (ytStep_wf_no_abort hwa)
    · have hs' : ytStep tracked' a it = .skip := ytStep_skip_mono hmono hs
      rw [processYtItems, hs']
      apply ih hwr hmono
      intro r hr
      apply hcov
      rw [processYtItems, hs]
      exact hr
    · have hhead : dictContains tracked' r.track_key = true := by
        apply hcov
        rw [processYtItems, hs]
        exact List.mem_cons_self _ _
      have hs' : ytStep tracked' a it = .skip := ytStep_emit_to_skip hs hhead
      rw [processYtItems, hs']
      apply ih hwr hmono
      intro r' hr'
      apply hcov
      rw [processYtItems, hs]
      exact List.mem_cons_of_mem _ hr'

end MusicTracker

namespace MusicTracker

/-! ### Second run over a grown ledger yields nothing (adapter and run level) -/

theorem check_youtube_second_run {env : Env} {i : Nat} {a : Artist}
    {tracked tracked' : Ledger}
    (hwf : ∀ j, ytRespWF (env.ytResp i j) = true)
    (hmono : ∀ k, dictContains tracked k = true → dictContains tracked' k = true)
    (hcov : ∀ r ∈ check_youtube_releases env i a tracked,
        dictContains tracked' r.track_key = true) :
    check_youtube_releases env i a tracked' = [] := by
  unfold check_youtube_releases at hcov ⊢
  by_cases ht : a.youtube_channel_id.truthy
  · by_cases hk : env.ytKeySet
    · rw [if_pos ht, if_pos hk]
      rw [if_pos ht, if_pos hk] at hcov
      rw [List.flatMap_eq_nil_iff]
      intro cIdx hcIdx
      unfold ytChannel
      split
      · rename_i items hresp
        refine processYtItems_second_run ?_ hmono ?_
        · have hwfc := hwf cIdx
          rw [hresp] at hwfc
          cases items with
          | none => rfl
          | some l => simpa [ytRespWF] using hwfc
        · intro r hr
          apply hcov
          apply List.mem_flatMap.mpr
          refine ⟨cIdx, hcIdx, ?_⟩
          unfold ytChannel
          rw [hresp]
          exact hr
      · rfl
    · rw [if_pos ht, if_neg hk]
  · rw [if_neg ht]

theorem check_melon_second_run {env : Env} {i : Nat} {a : Artist}
    {tracked tracked' : Ledger}
    (hmono : ∀ k, dictContains tracked k = true → dictContains tracked' k = true)
    (hcov : ∀ r ∈ check_melon_releases env i a tracked,
        dictContains tracked' r.track_key = true) :
    check_melon_releases env i a tracked' = [] := by
  unfold check_melon_releases at hcov ⊢
  split
  · rfl
  · rename_i u hmu
    simp only [hmu] at hcov
    rw [List.filter_eq_nil_iff]
    intro r hr
    by_cases hc : dictContains tracked r.track_key
    · simp [hmono _ hc]
    · have hmem : r ∈ List.filter (fun r => !dictContains tracked r.track_key)
          (scrape_artist_songs (env.melonResp i) a.name env.now) :=
        List.mem_filter.mpr ⟨hr, by simp [hc]⟩
      have hc' := hcov r hmem
      simp [hc']

theorem check_spotify_second_run {env : Env} {i : Nat} {a : Artist}
    {tracked tracked' : Ledger} {st st' : TokSt} {rs : List Release}
    (hwf : spotifyRespWF (env.spotifyResp i) = true)
    (hmono : ∀ k, dictContains tracked k = true → dictContains tracked' k = true)
    (h1 : check_spotify_releases env i a tracked st = .ok (rs, st'))
    (hcov : ∀ r ∈ rs, dictContains tracked' r.track_key = true) :
    check_spotify_releases env i a tracked' st = .ok ([], st') := by
  unfold check_spotify_releases at h1 ⊢
  split at h1
  · rename_i hsid
    injection h1 with h1'
    injection h1' with ha hb
    subst hb
    simp only [hsid]
  · rename_i sid hsid
    split at h1
    · exact Except.noConfusion h1
    · rename_i st'' htok
      injection h1 with h1'
      injection h1' with ha hb
      subst hb
      simp only [hsid, htok]
    · rename_i t st'' htok
      split at h1
      · rename_i items hresp
        injection h1 with h1'
        injection h1' with ha hb
        subst hb
        have hempty : processSpotifyItems tracked' (spotifyCheckDate env) a.name
            (items.getD []) = [] := by
          refine processSpotifyItems_second_run ?_ hmono ?_
          · rw [hresp] at hwf
            cases items with
            | none => rfl
            | some l => simpa [spotifyRespWF] using hwf
          · intro r hr
            apply hcov
            rw [← ha]
            exact hr
        simp only [hsid, htok, hresp, hempty]
      all_goals
        rename_i hresp
        injection h1 with h1'
        injection h1' with ha hb
        subst hb
        simp only [hsid, htok, hresp]

theorem checkArtist_second_run {env : Env} {i : Nat} {a : Artist}
    {tracked tracked' : Ledger} {st st' : TokSt} {rs : List Release}
    (hwfS : spotifyRespWF (env.spotifyResp i) = true)
    (hwfY : ∀ j, ytRespWF (env.ytResp i j) = true)
    (hmono : ∀ k, dictContains tracked k = true → dictContains tracked' k = true)
    (h1 : checkArtist env i a tracked st = .ok (rs, st'))
    (hcov : ∀ r ∈ rs, dictContains tracked' r.track_key = true) :
    checkArtist env i a tracked' st = .ok ([], st') := by
  unfold checkArtist at h1 ⊢
  split at h1
  · exact Except.noConfusion h1
  · rename_i sp st'' hsp
    injection h1 with h1'
    injection h1' with ha hb
    subst hb
    have hsp' : check_spotify_releases env i a tracked' st = .ok ([], st'') :=
      check_spotify_second_run hwfS hmono hsp
        (fun r hr => hcov r
          (ha ▸ List.mem_append_left _ (List.mem_append_left _ hr)))
    have hyt : check_youtube_releases env i a tracked' = [] :=
      check_youtube_second_run hwfY hmono
        (fun r hr => hcov r
          (ha ▸ List.mem_append_left _ (List.mem_append_right _ hr)))
    have hme : check_melon_releases env i a tracked' = [] :=
      check_melon_second_run hmono
        (fun r hr => hcov r (ha ▸ List.mem_append_right _ hr))
    rw [hsp']
    show Except.ok ([] ++ check_youtube_releases env i a tracked'
        ++ check_melon_releases env i a tracked', st'')
      = Except.ok ([], st'')
    rw [hyt, hme]
    rfl

theorem check_all_aux_second_run {env : Env} {tracked tracked' : Ledger}
    (hwf : EnvWF env)
    (hmono : ∀ k, dictContains tracked k = true → dictContains tracked' k = true) :
    ∀ {artists : List Artist} {i : Nat} {st : TokSt} {rs : List Release},
      check_all_aux env tracked artists i st = .ok rs →
      (∀ r ∈ rs, dictContains tracked' r.track_key = true) →
      check_all_aux env tracked' artists i st = .ok [] := by
  intro artists
  induction artists with
  | nil => intro i st rs _ _; rfl
  | cons a rest ih =>
    intro i st rs h1 hcov
    unfold check_all_aux at h1 ⊢
    split at h1
    · exact Except.noConfusion h1
    · rename_i rsa st' hca
      split at h1
      · exact Except.noConfusion h1
      · rename_i more hrest
        injection h1 with h1'
        have hca' : checkArtist env i a tracked' st = .ok ([], st') :=
          checkArtist_second_run (hwf.1 i) (hwf.2 i) hmono hca
            (fun r hr => hcov r (h1' ▸ List.mem_append_left _ hr))
        have hrest' : check_all_aux env tracked' rest (i + 1) st' = .ok [] :=
          ih hrest (fun r hr => hcov r (h1' ▸ List.mem_append_right _ hr))
        rw [hca']
        show (match check_all_aux env tracked' rest (i + 1) st' with
              | Except.error e => Except.error e
              | Except.ok more => Except.ok ([] ++ more))
            = Except.ok []
        rw [hrest']
        rfl

/-- C2 counterexample: same environment, same upstream responses, two runs in
immediate succession from an empty ledger.  Artist A's Spotify response is
[album m without `name`, well-formed album n]; artist B's is [well-formed
album m].  Run 1 aborts A's batch at the malformed album m (so album n is
never seen), dispatches and records `spotify_m` from B.  Run 2 skips album m
(now tracked) for A, reaches album n, and dispatches it — one sink submission
and one new ledger entry on the second run, contradicting idempotence. -/
theorem C2_second_run_dispatches_cex :
    run c2Env c2Artists [] = .ok ([c2RecM], c2L1, true) ∧
    run c2Env c2Artists c2L1 = .ok ([c2RecN], c2L2, true) ∧
    ([c2RecN] : List Release) ≠ [] :=
  ⟨rfl, rfl, by decide⟩

/-- C2 (amended): if every upstream item is well-formed (no `KeyError` aborts
during polling) and the first run's cleanup evicts nothing (true in
particular for any ledger this program wrote, whose timestamps are
timezone-aware), then running the pipeline again immediately after a
completed first run dispatches nothing, adds no ledger entry, and does not
write the ledger file. -/
theorem C2_pipeline_idempotent :
    ∀ (env : Env) (artists : List Artist) (l0 : Ledger) (d1 : List Release)
      (l1 : Ledger) (w : Bool),
      EnvWF env →
      (∀ p ∈ l0, cleanupKeeps p.2 env.now 30 = true) →
      run env artists l0 = .ok (d1, l1, w) →
      run env artists l1 = .ok ([], l1, false) := by
  intro env artists l0 d1 l1 w hwf hkeep hrun
  unfold run at hrun ⊢
  by_cases ha : artists.isEmpty
  · rw [if_pos ha]
  · rw [if_neg ha] at hrun ⊢
    split at hrun
    · exact Except.noConfusion hrun
    · rename_i newRs hca
      by_cases hne : newRs.isEmpty
      · rw [if_pos hne] at hrun
        injection hrun with h'
        injection h' with h1 h2
        injection h2 with h3 h4
        subst h3
        rw [hca]
        simp [hne]
      · rw [if_neg hne] at hrun
        injection hrun with h'
        injection h' with h1 h2
        injection h2 with h3 h4
        subst h3
        have hmono2 : ∀ k, dictContains l0 k = true →
            dictContains (cleanup_old_tracked_releases
              (recordAll l0 newRs env.nowUtc) env.now 30) k = true := by
          intro k hk
          apply contains_cleanup_of_all_kept (contains_recordAll_of_contains hk)
          intro p hp hpk
          rcases mem_recordAll hp with hmem | ⟨r, hr, hpr⟩
          · exact hkeep p hmem
          · rw [hpr]; simp [mkEntry, cleanupKeeps, pyLt]
        have hcov2 : ∀ r ∈ newRs, dictContains (cleanup_old_tracked_releases
            (recordAll l0 newRs env.nowUtc) env.now 30) r.track_key = true := by
          intro r hr
          apply contains_cleanup_of_all_kept (contains_recordAll_of_mem hr)
          intro p hp hpk
          rcases mem_recordAll hp with hmem | ⟨r', hr', hpr⟩
          · exact hkeep p hmem
          · rw [hpr]; simp [mkEntry, cleanupKeeps, pyLt]
        have hca2 : check_all_releases env artists
            (cleanup_old_tracked_releases (recordAll l0 newRs env.nowUtc) env.now 30)
            = .ok [] :=
          check_all_aux_second_run hwf hmono2 hca hcov2
        rw [hca2]
        rfl

/-- Witness: one artist, one well-formed Spotify album; after the first run
records it, the second run dispatches nothing and leaves the ledger alone. -/
theorem C2_pipeline_idempotent_witness :
    run c2wEnv c2wArtists c2wL1 = .ok ([], c2wL1, false) :=
  C2_pipeline_idempotent c2wEnv c2wArtists [] [c2wRec] c2wL1 true
    ⟨fun _ => rfl, fun _ _ => rfl⟩
    (fun p hp => absurd hp (List.not_mem_nil p)) rfl

end MusicTracker
